import Mathlib

/-
Verification of the mockhttp endpoint/scenario engine.

The definitions below embed the Go sources: the in-memory response recorder
(memoryResponseWriter in endpoint.go), the Responder combinators
(responder.go), the Scenario and Endpoint types with their handler
(endpoint.go / matchers.go), and the verification sweep
(MockServer.AssertExpectations).  Bodies are byte buffers, modelled as
strings; Go int/int64 values are modelled as Int.
-/

namespace Mockhttp

/-- Event sent to the live http.ResponseWriter: a header addition, a status
write, or a body write.  The live writer is modelled by the trace of such
events it receives. -/
inductive WriteEvent where
  | addHeader (k v : String)
  | writeHeader (code : Int)
  | write (body : String)
deriving DecidableEq

/-- Primitive call a Responder makes on the response writer it receives:
Header().Add, Write, or WriteHeader. -/
inductive ResponderOp where
  | addHeader (k v : String)
  | write (bytes : String)
  | writeHeader (code : Int)
deriving DecidableEq

/-- Responder configures a http.ResponseWriter to send data back
(responder.go); modelled by the ordered list of writer calls it performs. -/
abbrev Responder := List ResponderOp

/-- ResponseStatusCode is a Responder that defines the response status code
(responder.go): it calls w.WriteHeader(code). -/
def ResponseStatusCode (code : Int) : Responder := [.writeHeader code]

/-- ResponseHeaders is a Responder that defines the response headers
(responder.go): it calls w.Header().Add(k, i) for every pair. -/
def ResponseHeaders (headers : List (String × String)) : Responder :=
  headers.map fun kv => .addHeader kv.1 kv.2

/-- JSONResponseBody is a Responder that defines the response body as a JSON
string (responder.go): it adds the Content-Type header then writes the
bytes of the string. -/
def JSONResponseBody (jsonStr : String) : Responder :=
  [.addHeader "Content-Type" "application/json", .write jsonStr]

/-- StringResponseBody is a Responder that writes the bytes of the given
string (responder.go). -/
def StringResponseBody (b : String) : Responder := [.write b]

/-- memoryResponseWriter accumulates all response builder mutations so that
the order they are used in a test does not matter (endpoint.go).  The Go
zero values give body nil and statusCode 0. -/
structure memoryResponseWriter where
  headers    : List (String × String)
  body       : String
  statusCode : Int
deriving DecidableEq

/-- newMemoryResponseWriter returns a recorder with an empty header map,
nil body and zero status code (endpoint.go). -/
def newMemoryResponseWriter : memoryResponseWriter :=
  { headers := [], body := "", statusCode := 0 }

/-- Effect of one writer call on the recorder: Header().Add appends the
pair, Write stores the full buffer (m.body = bytes), WriteHeader stores the
code (m.statusCode = statusCode), as in endpoint.go. -/
def applyOp (m : memoryResponseWriter) : ResponderOp → memoryResponseWriter
  | .addHeader k v => { m with headers := m.headers ++ [(k, v)] }
  | .write bytes => { m with body := bytes }
  | .writeHeader code => { m with statusCode := code }

/-- Running one Responder against the recorder: the responder performs its
writer calls in order. -/
def applyResponder (m : memoryResponseWriter) (r : Responder) : memoryResponseWriter :=
  r.foldl applyOp m

/-- Running a list of builders in declaration order against the recorder,
as the loop `for _, b := range builders { b(mw) }` does. -/
def applyResponders (builders : List Responder) (m : memoryResponseWriter) : memoryResponseWriter :=
  builders.foldl applyResponder m

/-- flush copies every accumulated header to the target, then writes the
status code if one was recorded (statusCode > 0), then writes the body if
it is non-empty (endpoint.go lines 239-253). -/
def flush (m : memoryResponseWriter) : List WriteEvent :=
  (m.headers.map fun kv => WriteEvent.addHeader kv.1 kv.2)
    ++ (if 0 < m.statusCode then [WriteEvent.writeHeader m.statusCode] else [])
    ++ (if m.body ≠ "" then [WriteEvent.write m.body] else [])

/-- Step function recording the most recent WriteHeader code seen. -/
def statusStep (acc : Option Int) (op : ResponderOp) : Option Int :=
  match op with
  | .writeHeader c => some c
  | _ => acc

/-- Step function recording the most recent Write buffer seen. -/
def bodyStep (acc : Option String) (op : ResponderOp) : Option String :=
  match op with
  | .write b => some b
  | _ => acc

/-- Step function collecting header additions in order. -/
def headerStep (acc : List (String × String)) (op : ResponderOp) : List (String × String) :=
  match op with
  | .addHeader k v => acc ++ [(k, v)]
  | _ => acc

/-- Code of the last WriteHeader call in a run of writer calls, if any. -/
def lastStatusSet (ops : List ResponderOp) : Option Int :=
  ops.foldl statusStep none

/-- Buffer of the last Write call in a run of writer calls, if any. -/
def lastBodySet (ops : List ResponderOp) : Option String :=
  ops.foldl bodyStep none

/-- All header additions of a run of writer calls, in order. -/
def headerAdds (ops : List ResponderOp) : List (String × String) :=
  ops.foldl headerStep []

/-- Whether a writer call is a body Write. -/
def opIsWrite : ResponderOp → Bool
  | .write _ => true
  | _ => false

/-- Whether a writer call is a WriteHeader. -/
def opIsWriteHeader : ResponderOp → Bool
  | .writeHeader _ => true
  | _ => false

/-- Whether a target event is a header addition. -/
def evIsAddHeader : WriteEvent → Bool
  | .addHeader _ _ => true
  | _ => false

/-- Whether a target event is a status write. -/
def evIsWriteHeader : WriteEvent → Bool
  | .writeHeader _ => true
  | _ => false

/-- Whether a target event is a body write. -/
def evIsWrite : WriteEvent → Bool
  | .write _ => true
  | _ => false

/-- Step function recording the most recent status event of a target trace. -/
def evStatusStep (acc : Option Int) (e : WriteEvent) : Option Int :=
  match e with
  | .writeHeader c => some c
  | _ => acc

/-- Step function recording the most recent body event of a target trace. -/
def evBodyStep (acc : Option String) (e : WriteEvent) : Option String :=
  match e with
  | .write b => some b
  | _ => acc

/-- Final status code a live writer would retain from a trace. -/
def lastStatusEvent (evs : List WriteEvent) : Option Int :=
  evs.foldl evStatusStep none

/-- Final body a live writer would retain from a trace. -/
def lastBodyEvent (evs : List WriteEvent) : Option String :=
  evs.foldl evBodyStep none

/-- Request carries the parts of http.Request that matchers inspect. -/
structure Request where
  method : String
  path : String
  body : String

/-- Matcher validates the live request and reports mismatch messages
through the test failure channel; it never aborts the request
(matchers.go).  Modelled as the list of failure messages it records. -/
abbrev Matcher := Request → List String

/-- Scenario is one mocked case for an endpoint (matchers.go): an int64
execution counter, the expected repetition count times, the ordered
builders and the ordered matchers. -/
structure Scenario where
  executionCount : Int
  times : Int
  builders : List Responder
  matchers : List Matcher

instance : Inhabited Scenario := ⟨⟨0, 1, [], []⟩⟩

/-- newScenario stores the given matchers and sets times to 1; the counter
and the builders take the Go zero values (matchers.go lines 56-61). -/
def newScenario (matchers : List Matcher) : Scenario :=
  { executionCount := 0, times := 1, builders := [], matchers := matchers }

/-- Match increments the execution counter by one, then invokes every
matcher in declaration order; their failure messages accumulate in the
test handle in that order (matchers.go lines 64-72). -/
def scenarioMatch (s : Scenario) (r : Request) : Scenario × List String :=
  ({ s with executionCount := s.executionCount + 1 },
   (s.matchers.map fun m => m r).flatten)

/-- Times sets the expected repetition count and returns the scenario for
chaining (matchers.go lines 75-78). -/
def scenarioTimes (s : Scenario) (n : Int) : Scenario :=
  { s with times := n }

/-- TimesCalled returns the current execution counter without modifying it
(matchers.go lines 81-83). -/
def timesCalled (s : Scenario) : Int :=
  s.executionCount

/-- respondTo runs every builder of the scenario, in order, against a
fresh memoryResponseWriter and then flushes it once to the live writer
(matchers.go respondTo); the value is the trace the live writer receives. -/
def scenarioRespondTo (s : Scenario) : List WriteEvent :=
  flush (applyResponders s.builders newMemoryResponseWriter)

/-- Endpoint is an HTTP method and path owning ordered scenarios and the
int64 request counter (endpoint.go). -/
structure Endpoint where
  method : String
  path : String
  requestCount : Int
  scenarios : List Scenario

/-- newEndpoint stores method and path; counter and scenarios take the Go
zero values (endpoint.go). -/
def newEndpoint (method path : String) : Endpoint :=
  { method := method, path := path, requestCount := 0, scenarios := [] }

/-- AddScenario appends a scenario to the ordered list (endpoint.go). -/
def addScenario (e : Endpoint) (s : Scenario) : Endpoint :=
  { e with scenarios := e.scenarios ++ [s] }

/-- Index-threading translation of the plan construction loop of
Endpoint.Handler: the index of each scenario is appended s.times times (a
non-positive times contributes nothing, as the Go loop guard does). -/
def responsePlanAux (index : Nat) : List Scenario → List Nat
  | [] => []
  | s :: rest => List.replicate s.times.toNat index ++ responsePlanAux (index + 1) rest

/-- responsePlan flattens the scenarios into the repeated index plan that
Endpoint.Handler computes before returning its closure (endpoint.go lines
173-178). -/
def responsePlan (ss : List Scenario) : List Nat :=
  responsePlanAux 0 ss

/-- Clamp of the loaded request counter: when it reached the plan length
the last plan slot is used instead (endpoint.go lines 181-186). -/
def clampIndex (planLen : Nat) (count : Int) : Int :=
  if (planLen : Int) ≤ count then (planLen : Int) - 1 else count

/-- Indexing responsePlan[i] as Go does; an out-of-range index is a
runtime panic, modelled as none. -/
def lookupPlan (plan : List Nat) (i : Int) : Option Nat :=
  if h : 0 ≤ i ∧ i.toNat < plan.length then some (plan.get ⟨i.toNat, h.2⟩) else none

/-- One request through the closure of Endpoint.Handler: load the request
counter, clamp it, look up the plan slot and its scenario, run Match then
respondTo, then increment the request counter (endpoint.go lines 180-195).
The result carries the new endpoint state, the index of the serving
scenario, the matcher failures and the flushed response trace; none models
the panic of an out-of-range plan lookup. -/
def serveOne (plan : List Nat) (e : Endpoint) (r : Request) :
    Option (Endpoint × Nat × List String × List WriteEvent) :=
  match lookupPlan plan (clampIndex plan.length e.requestCount) with
  | none => none
  | some idx =>
    match e.scenarios.get? idx with
    | none => none
    | some s =>
      some ({ e with
                scenarios := e.scenarios.set idx (scenarioMatch s r).1
                requestCount := e.requestCount + 1 },
            idx, (scenarioMatch s r).2, scenarioRespondTo s)

/-- Sequential requests through the handler closure; returns the final
endpoint state and the serving scenario index of each request in order. -/
def serveSeq (plan : List Nat) (e : Endpoint) (rs : List Request) :
    Option (Endpoint × List Nat) :=
  match rs with
  | [] => some (e, [])
  | r :: rest =>
    match serveOne plan e r with
    | none => none
    | some (e', idx, _, _) =>
      match serveSeq plan e' rest with
      | none => none
      | some (e'', idxs) => some (e'', idx :: idxs)

/-- Dispatch of one request to the selected scenario: Match then
respondTo, mirroring lines 191-192 of Endpoint.Handler.  The result is the
updated scenario, the recorded matcher failures, and the response trace
flushed to the live writer. -/
def handleScenario (s : Scenario) (r : Request) : Scenario × List String × List WriteEvent :=
  ((scenarioMatch s r).1, (scenarioMatch s r).2, scenarioRespondTo s)

/-- Failure reported by the verification sweep of
MockServer.AssertExpectations. -/
inductive VerifyFailure where
  | notCalled (endpoint : String)
  | wrongCount (endpoint : String) (actual expected : Int)
deriving DecidableEq

/-- Scenario loop of MockServer.AssertExpectations (part_001 lines
249-265), including its break statements: a scenario whose counter equals
times stops the loop for this endpoint, a never-called scenario reports
once and stops the loop, and any other mismatch reports and continues with
the next scenario. -/
def verifyScenarios (name : String) : List Scenario → List VerifyFailure
  | [] => []
  | s :: rest =>
    if s.executionCount = s.times then []
    else if s.executionCount = 0 then [VerifyFailure.notCalled name]
    else VerifyFailure.wrongCount name s.executionCount s.times :: verifyScenarios name rest

/-- AssertExpectations sweeps every endpoint of the registry and collects
the failures its scenario loop reports (part_001 lines 249-265). -/
def assertExpectations (endpoints : List (String × List Scenario)) : List VerifyFailure :=
  (endpoints.map fun p => verifyScenarios p.1 p.2).flatten

/-- Recorder with a header, a status and a body, used to instantiate the
flush ordering theorem on a concrete input. -/
def sampleRecorder : memoryResponseWriter :=
  { headers := [("X-Foo", "bar")], body := "ok", statusCode := 201 }

/-- Matcher that always reports one failure, used to instantiate the
matcher theorems on a concrete input. -/
def failingMatcher : Matcher := fun _ => ["body mismatch"]

/-- Concrete scenario with a failing matcher and one status builder. -/
def failingScenario : Scenario :=
  { executionCount := 0, times := 1,
    builders := [ResponseStatusCode 204], matchers := [failingMatcher] }

/-- Concrete request used in the witnesses. -/
def sampleRequest : Request := { method := "GET", path := "/get", body := "" }

/-- Planned repetitions of the first k scenarios: the sum of their times
(clipped at zero, as the Go loop guard does). -/
def sumTo (ss : List Scenario) (k : Nat) : Nat :=
  ((ss.take k).map fun s => s.times.toNat).sum

/-- Scenario whose counter already equals its expected times. -/
def passedScenario : Scenario :=
  { executionCount := 1, times := 1, builders := [], matchers := [] }

/-- Scenario that was never called but expects one call. -/
def missedScenario : Scenario :=
  { executionCount := 0, times := 1, builders := [], matchers := [] }

/-- State of the request counter race model of Endpoint.Handler: the
shared int64 request counter, the value each in-flight request has loaded
from it (none until its LoadInt64 ran), and the number of steps each
request has completed. -/
structure ConcState where
  requestCount : Int
  loaded : List (Option Int)
  stepsDone : List Nat
deriving DecidableEq

/-- One scheduler step of request rid inside the handler closure: its
first step performs the LoadInt64 of the request counter at handler entry
(endpoint.go line 181) and stores the loaded plan index, its second step
performs the AddInt64 at handler exit (endpoint.go line 194); a finished
request does nothing.  The two steps are separate atomic operations, as in
the source, with Match and respondTo running between them. -/
def concStep (st : ConcState) (rid : Nat) : ConcState :=
  match st.stepsDone.getD rid 2 with
  | 0 => { st with loaded := st.loaded.set rid (some st.requestCount)
                   stepsDone := st.stepsDone.set rid 1 }
  | 1 => { st with requestCount := st.requestCount + 1
                   stepsDone := st.stepsDone.set rid 2 }
  | _ => st

/-- Run a schedule (a list of request ids, each occurring once per step)
over n fresh in-flight requests against a request counter starting at 0. -/
def runSched (n : Nat) (sched : List Nat) : ConcState :=
  sched.foldl concStep
    { requestCount := 0, loaded := List.replicate n none, stepsDone := List.replicate n 0 }

/-- Scenario used by the race example, expecting one call. -/
def raceScenarioA : Scenario :=
  { executionCount := 0, times := 1, builders := [], matchers := [] }

/-- Second scenario of the race example, expecting one call. -/
def raceScenarioB : Scenario :=
  { executionCount := 0, times := 1, builders := [], matchers := [] }

/-- First scenario of the concrete playback example, expecting two calls. -/
def wsFirst : Scenario := scenarioTimes (newScenario []) 2

/-- Second scenario of the concrete playback example, expecting one call. -/
def wsSecond : Scenario := newScenario []

/-- Scenario list of the concrete playback example. -/
def wsScenarios : List Scenario := [wsFirst, wsSecond]

/-- Endpoint of the concrete playback example. -/
def wsEndpoint : Endpoint :=
  { method := "GET", path := "/isbn", requestCount := 0, scenarios := wsScenarios }

/-- Four identical requests for the concrete playback example. -/
def wsRequests : List Request :=
  [sampleRequest, sampleRequest, sampleRequest, sampleRequest]

/- Fold lemmas relating the recorder fold to the per-field projections. -/

theorem foldl_statusStep_acc (ops : List ResponderOp) (a : Option Int) :
    ops.foldl statusStep a =
      match ops.foldl statusStep none with
      | some c => some c
      | none => a := by
  induction ops generalizing a with
  | nil => simp
  | cons op rest ih =>
    simp only [List.foldl_cons]
    rw [ih (statusStep a op), ih (statusStep none op)]
    cases h : rest.foldl statusStep none with
    | some c => simp
    | none => cases op <;> simp [statusStep]

theorem foldl_bodyStep_acc (ops : List ResponderOp) (a : Option String) :
    ops.foldl bodyStep a =
      match ops.foldl bodyStep none with
      | some b => some b
      | none => a := by
  induction ops generalizing a with
  | nil => simp
  | cons op rest ih =>
    simp only [List.foldl_cons]
    rw [ih (bodyStep a op), ih (bodyStep none op)]
    cases h : rest.foldl bodyStep none with
    | some b => simp
    | none => cases op <;> simp [bodyStep]

theorem foldl_headerStep_acc (ops : List ResponderOp) (a : List (String × String)) :
    ops.foldl headerStep a = a ++ ops.foldl headerStep [] := by
  induction ops generalizing a with
  | nil => simp
  | cons op rest ih =>
    simp only [List.foldl_cons]
    rw [ih (headerStep a op), ih (headerStep [] op)]
    cases op <;> simp [headerStep]

theorem applyOps_statusCode (ops : List ResponderOp) (m : memoryResponseWriter) :
    (ops.foldl applyOp m).statusCode =
      match lastStatusSet ops with
      | some c => c
      | none => m.statusCode := by
  induction ops generalizing m with
  | nil => simp [lastStatusSet]
  | cons op rest ih =>
    simp only [List.foldl_cons]
    rw [ih (applyOp m op)]
    show _ = (match (op :: rest).foldl statusStep none with
      | some c => c
      | none => m.statusCode)
    simp only [List.foldl_cons]
    rw [foldl_statusStep_acc rest (statusStep none op)]
    cases h : lastStatusSet rest with
    | some c => simp [lastStatusSet] at h; simp [h]
    | none =>
      simp [lastStatusSet] at h
      cases op <;> simp [h, statusStep, applyOp]

theorem applyOps_body (ops : List ResponderOp) (m : memoryResponseWriter) :
    (ops.foldl applyOp m).body =
      match lastBodySet ops with
      | some b => b
      | none => m.body := by
  induction ops generalizing m with
  | nil => simp [lastBodySet]
  | cons op rest ih =>
    simp only [List.foldl_cons]
    rw [ih (applyOp m op)]
    show _ = (match (op :: rest).foldl bodyStep none with
      | some b => b
      | none => m.body)
    simp only [List.foldl_cons]
    rw [foldl_bodyStep_acc rest (bodyStep none op)]
    cases h : lastBodySet rest with
    | some b => simp [lastBodySet] at h; simp [h]
    | none =>
      simp [lastBodySet] at h
      cases op <;> simp [h, bodyStep, applyOp]

theorem applyOps_headers (ops : List ResponderOp) (m : memoryResponseWriter) :
    (ops.foldl applyOp m).headers = m.headers ++ headerAdds ops := by
  induction ops generalizing m with
  | nil => simp [headerAdds]
  | cons op rest ih =>
    simp only [List.foldl_cons]
    rw [ih (applyOp m op)]
    show _ = m.headers ++ (op :: rest).foldl headerStep []
    simp only [List.foldl_cons]
    rw [foldl_headerStep_acc rest (headerStep [] op)]
    cases op <;> simp [headerStep, applyOp, headerAdds]

theorem applyResponders_eq_join (bs : List Responder) (m : memoryResponseWriter) :
    applyResponders bs m = bs.flatten.foldl applyOp m := by
  induction bs generalizing m with
  | nil => simp [applyResponders]
  | cons r bs ih =>
    show applyResponders bs (applyResponder m r) = _
    rw [ih]
    simp [applyResponder, List.foldl_append]

/- Trace projection lemmas for flush. -/

theorem foldl_evStatusStep_headers (hs : List (String × String)) (a : Option Int) :
    (hs.map fun kv => WriteEvent.addHeader kv.1 kv.2).foldl evStatusStep a = a := by
  induction hs generalizing a with
  | nil => rfl
  | cons kv rest ih => simp [evStatusStep, ih]

theorem foldl_evBodyStep_headers (hs : List (String × String)) (a : Option String) :
    (hs.map fun kv => WriteEvent.addHeader kv.1 kv.2).foldl evBodyStep a = a := by
  induction hs generalizing a with
  | nil => rfl
  | cons kv rest ih => simp [evBodyStep, ih]

theorem lastStatusEvent_flush (m : memoryResponseWriter) :
    lastStatusEvent (flush m) = if 0 < m.statusCode then some m.statusCode else none := by
  unfold flush lastStatusEvent
  rw [List.foldl_append, List.foldl_append, foldl_evStatusStep_headers]
  split_ifs with h1 h2 <;> simp [evStatusStep]

theorem lastBodyEvent_flush (m : memoryResponseWriter) :
    lastBodyEvent (flush m) = if m.body ≠ "" then some m.body else none := by
  unfold flush lastBodyEvent
  rw [List.foldl_append, List.foldl_append, foldl_evBodyStep_headers]
  split_ifs with h1 h2 <;> simp [evBodyStep]

theorem lastStatusSet_append (xs ys : List ResponderOp) :
    lastStatusSet (xs ++ ys) =
      match lastStatusSet ys with
      | some c => some c
      | none => lastStatusSet xs := by
  unfold lastStatusSet
  rw [List.foldl_append]
  exact foldl_statusStep_acc ys _

theorem lastBodySet_append (xs ys : List ResponderOp) :
    lastBodySet (xs ++ ys) =
      match lastBodySet ys with
      | some b => some b
      | none => lastBodySet xs := by
  unfold lastBodySet
  rw [List.foldl_append]
  exact foldl_bodyStep_acc ys _

theorem lastStatusSet_of_no_writeHeader :
    ∀ ys : List ResponderOp, (∀ op ∈ ys, opIsWriteHeader op = false) →
      lastStatusSet ys = none := by
  intro ys
  induction ys with
  | nil => intro _; rfl
  | cons op rest ih =>
    intro h
    have hop := h op (List.mem_cons_self _ _)
    unfold lastStatusSet
    rw [List.foldl_cons]
    have hz : statusStep none op = none := by
      cases op <;> simp [statusStep, opIsWriteHeader] at hop ⊢
    rw [hz]
    exact ih fun o ho => h o (List.mem_cons_of_mem _ ho)

theorem lastBodySet_of_no_write :
    ∀ ys : List ResponderOp, (∀ op ∈ ys, opIsWrite op = false) →
      lastBodySet ys = none := by
  intro ys
  induction ys with
  | nil => intro _; rfl
  | cons op rest ih =>
    intro h
    have hop := h op (List.mem_cons_self _ _)
    unfold lastBodySet
    rw [List.foldl_cons]
    have hz : bodyStep none op = none := by
      cases op <;> simp [bodyStep, opIsWrite] at hop ⊢
    rw [hz]
    exact ih fun o ho => h o (List.mem_cons_of_mem _ ho)

/-- C3: flush writes to the target in the fixed order headers, then
status, then body: the trace decomposes into the copied headers followed
by status events followed by body events; a status event occurs exactly
when a status code was recorded (statusCode > 0) and carries that code; a
body event occurs exactly when the recorded body is non-empty and carries
that body; and respondTo sends to the target exactly the events of one
flush of the recorder accumulated from the builders, so nothing reaches
the target before that single flush. -/
theorem flush_fixed_order :
    (∀ m : memoryResponseWriter,
      ∃ st bd, flush m = (m.headers.map fun kv => WriteEvent.addHeader kv.1 kv.2) ++ st ++ bd
        ∧ (∀ e ∈ st, evIsWriteHeader e = true)
        ∧ (∀ e ∈ bd, evIsWrite e = true)
        ∧ (st ≠ [] ↔ 0 < m.statusCode)
        ∧ (bd ≠ [] ↔ m.body ≠ "")
        ∧ (∀ c, WriteEvent.writeHeader c ∈ flush m ↔ 0 < m.statusCode ∧ c = m.statusCode)
        ∧ (∀ b, WriteEvent.write b ∈ flush m ↔ m.body ≠ "" ∧ b = m.body))
    ∧ (∀ s : Scenario,
        scenarioRespondTo s = flush (applyResponders s.builders newMemoryResponseWriter)) := by
  constructor
  · intro m
    refine ⟨if 0 < m.statusCode then [WriteEvent.writeHeader m.statusCode] else [],
            if m.body ≠ "" then [WriteEvent.write m.body] else [], rfl, ?_, ?_, ?_, ?_, ?_, ?_⟩
    · split_ifs <;> simp [evIsWriteHeader]
    · split_ifs <;> simp [evIsWrite]
    · split_ifs with h <;> simp [h]
    · split_ifs with h <;> simp [h]
    · intro c
      simp only [flush, List.mem_append, List.mem_map]
      constructor
      · rintro ((⟨kv, _, hkv⟩ | h1) | h2)
        · exact absurd hkv (by simp)
        · revert h1; split_ifs with hs <;> simp_all
        · revert h2; split_ifs with hb <;> simp_all
      · rintro ⟨hs, rfl⟩
        refine Or.inl (Or.inr ?_)
        simp [hs]
    · intro b
      simp only [flush, List.mem_append, List.mem_map]
      constructor
      · rintro ((⟨kv, _, hkv⟩ | h1) | h2)
        · exact absurd hkv (by simp)
        · revert h1; split_ifs with hs <;> simp_all
        · revert h2; split_ifs with hb <;> simp_all
      · rintro ⟨hb, rfl⟩
        refine Or.inr ?_
        simp [hb]
  · intro s
    rfl

/-- Witness for C3: on a concrete recorder the status and body membership
conditions of the flush ordering theorem hold. -/
theorem flush_fixed_order_witness :
    WriteEvent.writeHeader 201 ∈ flush sampleRecorder
    ∧ WriteEvent.write "ok" ∈ flush sampleRecorder
    ∧ scenarioRespondTo (newScenario [])
        = flush (applyResponders (newScenario []).builders newMemoryResponseWriter) := by
  obtain ⟨st, bd, _, _, _, _, _, hwh, hw⟩ := flush_fixed_order.1 sampleRecorder
  exact ⟨(hwh 201).mpr ⟨by decide, rfl⟩, (hw "ok").mpr ⟨by decide, rfl⟩,
    flush_fixed_order.2 (newScenario [])⟩

/-- C4: Write replaces the previously recorded body with the full new
buffer (no appending), WriteHeader replaces the previously recorded status
code, and header additions accumulate; hence after any sequence of
Responder invocations the recorded status code and body are those of the
last writer call that set each (Go zero values when never set) and the
headers are all additions in declaration order. -/
theorem recorder_last_write_wins (bs : List Responder) :
    (applyResponders bs newMemoryResponseWriter).statusCode = (lastStatusSet bs.flatten).getD 0
    ∧ (applyResponders bs newMemoryResponseWriter).body = (lastBodySet bs.flatten).getD ""
    ∧ (applyResponders bs newMemoryResponseWriter).headers = headerAdds bs.flatten
    ∧ (∀ (m : memoryResponseWriter) (bytes : String),
        (applyOp m (ResponderOp.write bytes)).body = bytes)
    ∧ (∀ (m : memoryResponseWriter) (code : Int),
        (applyOp m (ResponderOp.writeHeader code)).statusCode = code)
    ∧ (∀ (m : memoryResponseWriter) (k v : String),
        (applyOp m (ResponderOp.addHeader k v)).headers = m.headers ++ [(k, v)]) := by
  refine ⟨?_, ?_, ?_, fun m bytes => rfl, fun m code => rfl, fun m k v => rfl⟩
  · rw [applyResponders_eq_join, applyOps_statusCode]
    cases h : lastStatusSet bs.flatten <;> simp [h, newMemoryResponseWriter]
  · rw [applyResponders_eq_join, applyOps_body]
    cases h : lastBodySet bs.flatten <;> simp [h, newMemoryResponseWriter]
  · rw [applyResponders_eq_join, applyOps_headers]
    simp [newMemoryResponseWriter]

/-- C5: a Responder that makes no body write and a Responder that makes no
status write give, applied to a fresh recorder in either order and then
flushed, the same final status code and the same final body on the target
writer. -/
theorem status_body_order_independent (r1 r2 : Responder)
    (h1 : ∀ op ∈ r1, opIsWrite op = false)
    (h2 : ∀ op ∈ r2, opIsWriteHeader op = false) :
    (applyResponders [r1, r2] newMemoryResponseWriter).statusCode
      = (applyResponders [r2, r1] newMemoryResponseWriter).statusCode
    ∧ (applyResponders [r1, r2] newMemoryResponseWriter).body
      = (applyResponders [r2, r1] newMemoryResponseWriter).body
    ∧ lastStatusEvent (flush (applyResponders [r1, r2] newMemoryResponseWriter))
      = lastStatusEvent (flush (applyResponders [r2, r1] newMemoryResponseWriter))
    ∧ lastBodyEvent (flush (applyResponders [r1, r2] newMemoryResponseWriter))
      = lastBodyEvent (flush (applyResponders [r2, r1] newMemoryResponseWriter)) := by
  have hf12 : ([r1, r2] : List Responder).flatten = r1 ++ r2 := by simp
  have hf21 : ([r2, r1] : List Responder).flatten = r2 ++ r1 := by simp
  have e1 : lastStatusSet (r1 ++ r2) = lastStatusSet r1 := by
    rw [lastStatusSet_append, lastStatusSet_of_no_writeHeader r2 h2]
  have e2 : lastStatusSet (r2 ++ r1) = lastStatusSet r1 := by
    rw [lastStatusSet_append]
    cases h : lastStatusSet r1 <;>
      simp [h, lastStatusSet_of_no_writeHeader r2 h2]
  have b1 : lastBodySet (r1 ++ r2) = lastBodySet r2 := by
    rw [lastBodySet_append]
    cases h : lastBodySet r2 <;>
      simp [h, lastBodySet_of_no_write r1 h1]
  have b2 : lastBodySet (r2 ++ r1) = lastBodySet r2 := by
    rw [lastBodySet_append, lastBodySet_of_no_write r1 h1]
  have hs : (applyResponders [r1, r2] newMemoryResponseWriter).statusCode
      = (applyResponders [r2, r1] newMemoryResponseWriter).statusCode := by
    rw [applyResponders_eq_join, applyResponders_eq_join, hf12, hf21,
      applyOps_statusCode, applyOps_statusCode, e1, e2]
  have hb : (applyResponders [r1, r2] newMemoryResponseWriter).body
      = (applyResponders [r2, r1] newMemoryResponseWriter).body := by
    rw [applyResponders_eq_join, applyResponders_eq_join, hf12, hf21,
      applyOps_body, applyOps_body, b1, b2]
  refine ⟨hs, hb, ?_, ?_⟩
  · rw [lastStatusEvent_flush, lastStatusEvent_flush, hs]
  · rw [lastBodyEvent_flush, lastBodyEvent_flush, hb]

/-- Witness for C5: ResponseStatusCode 201 and JSONResponseBody applied in
either order give the same recorded status and body. -/
theorem status_body_order_independent_witness :
    ((∀ op ∈ ResponseStatusCode 201, opIsWrite op = false)
      ∧ (∀ op ∈ JSONResponseBody "ok", opIsWriteHeader op = false))
    ∧ ((applyResponders [ResponseStatusCode 201, JSONResponseBody "ok"] newMemoryResponseWriter).statusCode
        = (applyResponders [JSONResponseBody "ok", ResponseStatusCode 201] newMemoryResponseWriter).statusCode
      ∧ (applyResponders [ResponseStatusCode 201, JSONResponseBody "ok"] newMemoryResponseWriter).body
        = (applyResponders [JSONResponseBody "ok", ResponseStatusCode 201] newMemoryResponseWriter).body
      ∧ lastStatusEvent (flush (applyResponders [ResponseStatusCode 201, JSONResponseBody "ok"] newMemoryResponseWriter))
        = lastStatusEvent (flush (applyResponders [JSONResponseBody "ok", ResponseStatusCode 201] newMemoryResponseWriter))
      ∧ lastBodyEvent (flush (applyResponders [ResponseStatusCode 201, JSONResponseBody "ok"] newMemoryResponseWriter))
        = lastBodyEvent (flush (applyResponders [JSONResponseBody "ok", ResponseStatusCode 201] newMemoryResponseWriter))) :=
  ⟨⟨by decide, by decide⟩,
    status_body_order_independent (ResponseStatusCode 201) (JSONResponseBody "ok")
      (by decide) (by decide)⟩

/-- C6: dispatching a request to a scenario invokes every attached matcher
in declaration order (the reported failures are the concatenation of the
matcher outputs in that order), and the rendered response does not depend
on the matchers at all: even when the failure list is non-empty the same
response of the scenario is flushed to the writer. -/
theorem matchers_run_in_order_and_never_abort (s : Scenario) (r : Request) :
    (handleScenario s r).2.1 = (s.matchers.map fun m => m r).flatten
    ∧ (handleScenario s r).2.2 = (handleScenario { s with matchers := [] } r).2.2
    ∧ ((handleScenario s r).2.1 ≠ [] → (handleScenario s r).2.2 = scenarioRespondTo s) :=
  ⟨rfl, rfl, fun _ => rfl⟩

/-- Witness for C6: the concrete failing matcher records its failure and
the 204 response is still flushed. -/
theorem matchers_never_abort_witness :
    (handleScenario failingScenario sampleRequest).2.1 = ["body mismatch"]
    ∧ (handleScenario failingScenario sampleRequest).2.1 ≠ []
    ∧ (handleScenario failingScenario sampleRequest).2.2 = scenarioRespondTo failingScenario
    ∧ (handleScenario failingScenario sampleRequest).2.2 = [WriteEvent.writeHeader 204] := by
  have h1 : (handleScenario failingScenario sampleRequest).2.1 = ["body mismatch"] := rfl
  have hne : (handleScenario failingScenario sampleRequest).2.1 ≠ [] := by
    rw [h1]; simp
  exact ⟨h1, hne,
    (matchers_run_in_order_and_never_abort failingScenario sampleRequest).2.2 hne, rfl⟩

/-- C8: a new scenario has times 1 and execution counter 0, and for n ≥ 1
Times sets times to n leaving every other field unchanged, returning the
scenario for chaining. -/
theorem scenario_defaults_and_times (ms : List Matcher) (s : Scenario) (n : Int)
    (hn : 1 ≤ n) :
    (newScenario ms).times = 1
    ∧ (newScenario ms).executionCount = 0
    ∧ (newScenario ms).matchers = ms
    ∧ (scenarioTimes s n).times = n
    ∧ (scenarioTimes s n).executionCount = s.executionCount
    ∧ (scenarioTimes s n).builders = s.builders
    ∧ (scenarioTimes s n).matchers = s.matchers :=
  ⟨rfl, rfl, rfl, rfl, rfl, rfl, rfl⟩

/-- Witness for C8 at matchers [] and n = 2. -/
theorem scenario_defaults_and_times_witness :
    1 ≤ (2 : Int)
    ∧ ((newScenario []).times = 1
      ∧ (newScenario []).executionCount = 0
      ∧ (newScenario []).matchers = ([] : List Matcher)
      ∧ (scenarioTimes (newScenario []) 2).times = 2
      ∧ (scenarioTimes (newScenario []) 2).executionCount = (newScenario []).executionCount
      ∧ (scenarioTimes (newScenario []) 2).builders = (newScenario []).builders
      ∧ (scenarioTimes (newScenario []) 2).matchers = (newScenario []).matchers) :=
  ⟨by decide, scenario_defaults_and_times [] (newScenario []) 2 (by decide)⟩

theorem getD_replicate_lt (t i N d : Nat) (h : N < t) :
    (List.replicate t i).getD N d = i := by
  rw [List.getD_eq_getElem _ _ (by simpa using h), List.getElem_replicate]

theorem length_responsePlanAux (ss : List Scenario) (i : Nat) :
    (responsePlanAux i ss).length = (ss.map fun s => s.times.toNat).sum := by
  induction ss generalizing i with
  | nil => rfl
  | cons s rest ih => simp [responsePlanAux, ih]

theorem sumTo_length (ss : List Scenario) :
    sumTo ss ss.length = (ss.map fun s => s.times.toNat).sum := by
  simp [sumTo, List.take_length]

theorem sumTo_le_succ (ss : List Scenario) (k : Nat) : sumTo ss k ≤ sumTo ss (k + 1) := by
  unfold sumTo
  rw [List.take_succ, List.map_append, List.sum_append]
  exact Nat.le_add_right _ _

theorem sumTo_mono (ss : List Scenario) {j k : Nat} (h : j ≤ k) :
    sumTo ss j ≤ sumTo ss k := by
  induction k with
  | zero => simp_all
  | succ k ih =>
    rcases Nat.lt_or_ge j (k + 1) with hlt | hge
    · exact le_trans (ih (by omega)) (sumTo_le_succ ss k)
    · have : j = k + 1 := by omega
      subst this
      exact le_rfl

theorem responsePlanAux_mem_lt :
    ∀ (ss : List Scenario) (i x : Nat), x ∈ responsePlanAux i ss → x < i + ss.length := by
  intro ss
  induction ss with
  | nil => intro i x h; simp [responsePlanAux] at h
  | cons s rest ih =>
    intro i x h
    unfold responsePlanAux at h
    rcases List.mem_append.mp h with h | h
    · have := List.eq_of_mem_replicate h
      subst this
      simp [List.length_cons]
    · have := ih (i + 1) x h
      simp only [List.length_cons]
      omega

theorem one_le_length_responsePlanAux :
    ∀ (ss : List Scenario) (i : Nat), (∃ s ∈ ss, 1 ≤ s.times) →
      1 ≤ (responsePlanAux i ss).length := by
  intro ss
  induction ss with
  | nil => rintro i ⟨s, hs, -⟩; simp at hs
  | cons s rest ih =>
    rintro i ⟨w, hw, hwt⟩
    unfold responsePlanAux
    rw [List.length_append, List.length_replicate]
    rcases List.mem_cons.mp hw with rfl | hw
    · omega
    · have := ih (i + 1) ⟨w, hw, hwt⟩
      omega

theorem responsePlanAux_nil_of_all_nonpos :
    ∀ (ss : List Scenario) (i : Nat), (∀ s ∈ ss, s.times ≤ 0) →
      responsePlanAux i ss = [] := by
  intro ss
  induction ss with
  | nil => intro i _; rfl
  | cons s rest ih =>
    intro i h
    unfold responsePlanAux
    have h0 : s.times.toNat = 0 := by
      have := h s (List.mem_cons_self _ _)
      omega
    rw [h0, List.replicate_zero, List.nil_append]
    exact ih (i + 1) fun x hx => h x (List.mem_cons_of_mem _ hx)

theorem responsePlanAux_getD_segment :
    ∀ (ss : List Scenario) (i j N : Nat), j < ss.length →
      sumTo ss j ≤ N → N < sumTo ss (j + 1) →
      (responsePlanAux i ss).getD N 0 = i + j := by
  intro ss
  induction ss with
  | nil => intro i j N h; simp at h
  | cons s rest ih =>
    intro i j N hj hlo hhi
    have hcons : ∀ k, sumTo (s :: rest) (k + 1) = s.times.toNat + sumTo rest k := by
      intro k; simp [sumTo]
    cases j with
    | zero =>
      have ht : N < s.times.toNat := by
        have h1 := hcons 0
        have h0 : sumTo rest 0 = 0 := by simp [sumTo]
        omega
      unfold responsePlanAux
      rw [List.getD_append _ _ _ _ (by simpa using ht), getD_replicate_lt _ _ _ _ ht]
      omega
    | succ j' =>
      have hlo' : s.times.toNat + sumTo rest j' ≤ N := by
        have := hcons j'; omega
      have hhi' : N < s.times.toNat + sumTo rest (j' + 1) := by
        have := hcons (j' + 1); omega
      unfold responsePlanAux
      rw [List.getD_append_right _ _ _ _ (by simp; omega)]
      simp only [List.length_replicate]
      have hrec := ih (i + 1) j' (N - s.times.toNat)
        (by simpa [List.length_cons] using hj) (by omega) (by omega)
      rw [hrec]
      omega

theorem responsePlanAux_getD_last :
    ∀ (ss : List Scenario) (i : Nat), ss ≠ [] → (∀ s ∈ ss, 1 ≤ s.times) →
      (responsePlanAux i ss).getD ((responsePlanAux i ss).length - 1) 0
        = i + ss.length - 1 := by
  intro ss
  induction ss with
  | nil => intro i h; exact absurd rfl h
  | cons s rest ih =>
    intro i _ ht
    have ht0 : 1 ≤ s.times.toNat := by
      have := ht s (List.mem_cons_self _ _)
      omega
    by_cases hrest : rest = []
    · subst hrest
      show (List.replicate s.times.toNat i ++ responsePlanAux (i + 1) []).getD _ 0 = _
      simp only [responsePlanAux, List.append_nil, List.length_replicate, List.length_cons,
        List.length_nil]
      rw [getD_replicate_lt _ _ _ _ (by omega)]
      omega
    · obtain ⟨w, hw⟩ := List.exists_mem_of_ne_nil rest hrest
      have hlen1 : 1 ≤ (responsePlanAux (i + 1) rest).length :=
        one_le_length_responsePlanAux rest (i + 1)
          ⟨w, hw, ht w (List.mem_cons_of_mem _ hw)⟩
      unfold responsePlanAux
      rw [List.length_append, List.length_replicate]
      rw [List.getD_append_right _ _ _ _ (by simp; omega)]
      simp only [List.length_replicate]
      have harith : s.times.toNat + (responsePlanAux (i + 1) rest).length - 1 - s.times.toNat
          = (responsePlanAux (i + 1) rest).length - 1 := by omega
      rw [harith, ih (i + 1) hrest fun x hx => ht x (List.mem_cons_of_mem _ hx)]
      simp only [List.length_cons]
      omega

theorem getD_map_range (f : Nat → Nat) (n N : Nat) (h : N < n) :
    ((List.range n).map f).getD N 0 = f N := by
  rw [List.getD_eq_getElem _ _ (by simpa using h)]
  simp

theorem serveOne_success (plan : List Nat) (e : Endpoint) (r : Request)
    (hpl : plan ≠ []) (hct : 0 ≤ e.requestCount)
    (hbd : ∀ x ∈ plan, x < e.scenarios.length) :
    ∃ s, e.scenarios.get? (plan.getD (min e.requestCount.toNat (plan.length - 1)) 0) = some s
      ∧ serveOne plan e r =
        some ({ e with
                  scenarios := e.scenarios.set
                    (plan.getD (min e.requestCount.toNat (plan.length - 1)) 0)
                    (scenarioMatch s r).1
                  requestCount := e.requestCount + 1 },
              plan.getD (min e.requestCount.toNat (plan.length - 1)) 0,
              (scenarioMatch s r).2, scenarioRespondTo s) := by
  have hlen : 1 ≤ plan.length := List.length_pos.mpr hpl
  have hc0 : 0 ≤ clampIndex plan.length e.requestCount := by
    unfold clampIndex; split_ifs <;> omega
  have hclt : (clampIndex plan.length e.requestCount).toNat < plan.length := by
    unfold clampIndex; split_ifs <;> omega
  have hcmin : (clampIndex plan.length e.requestCount).toNat
      = min e.requestCount.toNat (plan.length - 1) := by
    unfold clampIndex; split_ifs <;> omega
  have hlook : lookupPlan plan (clampIndex plan.length e.requestCount)
      = some (plan.getD (min e.requestCount.toNat (plan.length - 1)) 0) := by
    unfold lookupPlan
    rw [dif_pos ⟨hc0, hclt⟩]
    congr 1
    rw [← hcmin, List.getD_eq_getElem _ _ hclt]
    rfl
  have hmem : plan.getD (min e.requestCount.toNat (plan.length - 1)) 0 ∈ plan := by
    rw [← hcmin, List.getD_eq_getElem _ _ hclt]
    exact List.getElem_mem _
  have hidxlt : plan.getD (min e.requestCount.toNat (plan.length - 1)) 0
      < e.scenarios.length := hbd _ hmem
  obtain ⟨s, hsget⟩ : ∃ s, e.scenarios.get?
      (plan.getD (min e.requestCount.toNat (plan.length - 1)) 0) = some s :=
    ⟨_, List.get?_eq_get hidxlt⟩
  refine ⟨s, hsget, ?_⟩
  unfold serveOne
  simp only [hlook, hsget]

theorem serveSeq_spec (plan : List Nat) :
    ∀ (rs : List Request) (e : Endpoint),
      plan ≠ [] → 0 ≤ e.requestCount → (∀ x ∈ plan, x < e.scenarios.length) →
      ∃ e' idxs, serveSeq plan e rs = some (e', idxs)
        ∧ idxs = (List.range rs.length).map
            (fun N => plan.getD (min (e.requestCount.toNat + N) (plan.length - 1)) 0)
        ∧ e'.requestCount = e.requestCount + rs.length
        ∧ e'.scenarios.length = e.scenarios.length
        ∧ ∀ j s0, e.scenarios.get? j = some s0 →
            ∃ s1, e'.scenarios.get? j = some s1
              ∧ s1.executionCount = s0.executionCount + (idxs.count j : Int)
              ∧ s1.times = s0.times := by
  intro rs
  induction rs with
  | nil =>
    intro e hpl hct hbd
    refine ⟨e, [], rfl, by simp, by simp, rfl, ?_⟩
    intro j s0 h
    exact ⟨s0, h, by simp, rfl⟩
  | cons r rest ih =>
    intro e hpl hct hbd
    obtain ⟨s, hsget, hserve⟩ := serveOne_success plan e r hpl hct hbd
    set idx0 := plan.getD (min e.requestCount.toNat (plan.length - 1)) 0 with hidx0
    set e1 : Endpoint := { e with
        scenarios := e.scenarios.set idx0 (scenarioMatch s r).1
        requestCount := e.requestCount + 1 } with he1
    have hlen1 : e1.scenarios.length = e.scenarios.length := by
      rw [he1]; exact List.length_set _ _ _
    have hbd1 : ∀ x ∈ plan, x < e1.scenarios.length := by
      intro x hx; rw [hlen1]; exact hbd x hx
    have hct1 : 0 ≤ e1.requestCount := by rw [he1]; simp; omega
    obtain ⟨e', idxs', hseq, hmap, hcount, hlen, hsc⟩ := ih e1 hpl hct1 hbd1
    have hcn1 : e1.requestCount.toNat = e.requestCount.toNat + 1 := by
      rw [he1]; simp; omega
    refine ⟨e', idx0 :: idxs', ?_, ?_, ?_, ?_, ?_⟩
    · unfold serveSeq
      simp only [hserve, hseq]
    · rw [List.length_cons, List.range_succ_eq_map, List.map_cons, List.map_map]
      have hhead : plan.getD (min (e.requestCount.toNat + 0) (plan.length - 1)) 0 = idx0 := by
        rw [hidx0]; simp
      have htail : idxs' = (List.range rest.length).map
          ((fun N => plan.getD (min (e.requestCount.toNat + N) (plan.length - 1)) 0) ∘ Nat.succ) := by
        rw [hmap]
        apply List.map_congr_left
        intro N _
        simp only [Function.comp_apply]
        congr 1
        omega
      rw [hhead, ← htail]
    · rw [hcount, he1]
      simp only [List.length_cons]
      push_cast
      ring
    · rw [hlen, hlen1]
    · intro j s0 hj
      have hjlt : j < e.scenarios.length := by
        obtain ⟨hlt, -⟩ := List.get?_eq_some.mp hj
        exact hlt
      by_cases hcase : j = idx0
      · subst hcase
        have hs0 : s0 = s := by
          rw [hj] at hsget
          exact Option.some.inj hsget
        have h1 : e1.scenarios.get? idx0 = some (scenarioMatch s r).1 := by
          rw [he1]
          exact List.get?_set_eq_of_lt _ hjlt
        obtain ⟨s1, hs1, hcnt, htimes⟩ := hsc idx0 (scenarioMatch s r).1 h1
        refine ⟨s1, hs1, ?_, ?_⟩
        · rw [hcnt, hs0, List.count_cons_self]
          simp only [scenarioMatch]
          push_cast
          ring
        · rw [htimes, hs0]
          rfl
      · have h1 : e1.scenarios.get? j = e.scenarios.get? j := by
          rw [he1]
          exact List.get?_set_ne _ _ fun h => hcase h.symm
        obtain ⟨s1, hs1, hcnt, htimes⟩ := hsc j s0 (by rw [h1]; exact hj)
        refine ⟨s1, hs1, ?_, htimes⟩
        rw [hcnt, List.count_cons_of_ne hcase]

/-- C2, failing input: one endpoint whose first scenario matched its
expected count and whose second scenario was never called.  The break
taken after the passing first scenario ends the loop of
AssertExpectations, so the sweep reports no failure at all, although the
second scenario has TimesCalled 0 and expected times 1; the claim requires
exactly one notCalled failure for it. -/
theorem assertExpectations_skips_after_passing_scenario :
    assertExpectations [("GET /get", [passedScenario, missedScenario])] = []
    ∧ timesCalled missedScenario = 0
    ∧ missedScenario.times = 1
    ∧ timesCalled missedScenario ≠ missedScenario.times := by
  refine ⟨rfl, rfl, rfl, by decide⟩

/-- C1: with the request counter starting at 0, serving any sequence of
requests succeeds and the Nth (0-indexed) request is served by the
scenario at plan[min(N, len(plan)-1)]; hence the requests inside the jth
segment of the plan are served by scenario j (the first t1 by S1, the next
t2 by S2, and so on) and every request with index at least the total
planned count is served by the last scenario. -/
theorem endpoint_handler_serves_response_plan (ss : List Scenario) (e : Endpoint)
    (rs : List Request) (hc : e.requestCount = 0) (hsc : e.scenarios = ss)
    (hne : ss ≠ []) (ht : ∀ s ∈ ss, 1 ≤ s.times) :
    ∃ e' idxs, serveSeq (responsePlan ss) e rs = some (e', idxs)
      ∧ (∀ N, N < rs.length →
          idxs.getD N 0 = (responsePlan ss).getD (min N ((responsePlan ss).length - 1)) 0)
      ∧ (∀ N j, N < rs.length → j < ss.length →
          sumTo ss j ≤ N → N < sumTo ss (j + 1) → idxs.getD N 0 = j)
      ∧ (∀ N, N < rs.length → sumTo ss ss.length ≤ N → idxs.getD N 0 = ss.length - 1) := by
  have hlentot : (responsePlan ss).length = sumTo ss ss.length := by
    rw [sumTo_length]
    exact length_responsePlanAux ss 0
  have hplne : responsePlan ss ≠ [] := by
    obtain ⟨w, hw⟩ := List.exists_mem_of_ne_nil ss hne
    have h1 : 1 ≤ (responsePlan ss).length :=
      one_le_length_responsePlanAux ss 0 ⟨w, hw, ht w hw⟩
    intro h
    rw [h] at h1
    simp at h1
  have hbd : ∀ x ∈ responsePlan ss, x < e.scenarios.length := by
    intro x hx
    rw [hsc]
    have := responsePlanAux_mem_lt ss 0 x hx
    simpa using this
  obtain ⟨e', idxs, hseq, hmap, -, -, -⟩ :=
    serveSeq_spec (responsePlan ss) rs e hplne (by rw [hc]) hbd
  have hcnt0 : e.requestCount.toNat = 0 := by rw [hc]; rfl
  refine ⟨e', idxs, hseq, ?_, ?_, ?_⟩
  · intro N hN
    rw [hmap, getD_map_range _ _ _ hN, hcnt0, Nat.zero_add]
  · intro N j hN hj hlo hhi
    have hNlt : N < (responsePlan ss).length := by
      have h1 : sumTo ss (j + 1) ≤ sumTo ss ss.length := sumTo_mono ss (by omega)
      omega
    rw [hmap, getD_map_range _ _ _ hN, hcnt0, Nat.zero_add]
    have hminN : min N ((responsePlan ss).length - 1) = N := by omega
    rw [hminN]
    simpa using responsePlanAux_getD_segment ss 0 j N hj hlo hhi
  · intro N hN hge
    rw [hmap, getD_map_range _ _ _ hN, hcnt0, Nat.zero_add]
    have hminN : min N ((responsePlan ss).length - 1) = (responsePlan ss).length - 1 := by
      omega
    rw [hminN]
    have hlast := responsePlanAux_getD_last ss 0 hne ht
    simpa using hlast

/-- Witness for C1: two scenarios with times 2 and 1 and four requests;
the served scenario indices are 0, 0, 1, 1, the fourth request being the
graceful overflow onto the last scenario. -/
theorem endpoint_handler_serves_response_plan_witness :
    (wsEndpoint.requestCount = 0 ∧ wsEndpoint.scenarios = wsScenarios
      ∧ wsScenarios ≠ [] ∧ (∀ s ∈ wsScenarios, 1 ≤ s.times))
    ∧ (∃ e' idxs, serveSeq (responsePlan wsScenarios) wsEndpoint wsRequests = some (e', idxs))
    ∧ (serveSeq (responsePlan wsScenarios) wsEndpoint wsRequests).map (fun p => p.2)
        = some [0, 0, 1, 1] := by
  have hts : ∀ s ∈ wsScenarios, 1 ≤ s.times := by
    intro s hs
    simp only [wsScenarios, List.mem_cons, List.mem_singleton] at hs
    rcases hs with rfl | rfl | h
    · decide
    · decide
    · simp at h
  have hne : wsScenarios ≠ [] := by simp [wsScenarios]
  obtain ⟨e', idxs, hseq, -, -, -⟩ :=
    endpoint_handler_serves_response_plan wsScenarios wsEndpoint wsRequests rfl rfl hne hts
  exact ⟨⟨rfl, rfl, hne, hts⟩, ⟨e', idxs, hseq⟩, rfl⟩

/-- C7: each Match call increments the execution counter by exactly one,
TimesCalled returns the counter without modifying anything, and after any
sequence of requests served from counter 0, every scenario that started
with counter 0 has TimesCalled equal to the number of requests the handler
dispatched to it. -/
theorem times_called_counts_dispatches (ss : List Scenario) (e : Endpoint)
    (rs : List Request) (hc : e.requestCount = 0) (hsc : e.scenarios = ss)
    (hne : responsePlan ss ≠ []) :
    (∀ (s : Scenario) (r : Request),
        timesCalled (scenarioMatch s r).1 = timesCalled s + 1)
    ∧ (∀ s : Scenario, timesCalled s = s.executionCount)
    ∧ ∃ e' idxs, serveSeq (responsePlan ss) e rs = some (e', idxs)
        ∧ ∀ j s0, e.scenarios.get? j = some s0 → s0.executionCount = 0 →
            ∃ s1, e'.scenarios.get? j = some s1
              ∧ timesCalled s1 = (idxs.count j : Int) := by
  have hbd : ∀ x ∈ responsePlan ss, x < e.scenarios.length := by
    intro x hx
    rw [hsc]
    have := responsePlanAux_mem_lt ss 0 x hx
    simpa using this
  obtain ⟨e', idxs, hseq, -, -, -, hcounts⟩ :=
    serveSeq_spec (responsePlan ss) rs e hne (by rw [hc]) hbd
  refine ⟨fun s r => rfl, fun s => rfl, e', idxs, hseq, ?_⟩
  intro j s0 hj h0
  obtain ⟨s1, hs1, hcnt, -⟩ := hcounts j s0 hj
  refine ⟨s1, hs1, ?_⟩
  rw [timesCalled, hcnt, h0, zero_add]

/-- Witness for C7: in the concrete playback example both scenarios start
at counter 0 and end with TimesCalled 2: the first was dispatched the
first two requests, the second the last two (one planned call plus one
overflow call). -/
theorem times_called_counts_dispatches_witness :
    (wsEndpoint.requestCount = 0 ∧ wsEndpoint.scenarios = wsScenarios
      ∧ responsePlan wsScenarios ≠ [])
    ∧ (∃ e' idxs, serveSeq (responsePlan wsScenarios) wsEndpoint wsRequests = some (e', idxs))
    ∧ (serveSeq (responsePlan wsScenarios) wsEndpoint wsRequests).map
        (fun p => p.1.scenarios.map timesCalled) = some [2, 2] := by
  have hne : responsePlan wsScenarios ≠ [] := by
    intro h
    have : (responsePlan wsScenarios).length = 0 := by rw [h]; rfl
    rw [show (responsePlan wsScenarios).length = 3 from rfl] at this
    omega
  obtain ⟨-, -, e', idxs, hseq, -⟩ :=
    times_called_counts_dispatches wsScenarios wsEndpoint wsRequests rfl rfl hne
  exact ⟨⟨rfl, rfl, hne⟩, ⟨e', idxs, hseq⟩, rfl⟩

/-- C10: when some scenario has times at least 1 the plan is non-empty and
for every nonnegative counter value the clamped index is in bounds and the
lookup yields a registered scenario index; when every scenario has times
at most 0 (in particular when there are none) the plan is empty, the very
first request clamps the counter 0 to -1, and the plan lookup is out of
bounds, so serving the first request panics. -/
theorem plan_lookup_bounds (ss : List Scenario) :
    ((∃ s ∈ ss, 1 ≤ s.times) →
      responsePlan ss ≠ []
      ∧ (∀ count : Int, 0 ≤ count →
          0 ≤ clampIndex (responsePlan ss).length count
          ∧ (clampIndex (responsePlan ss).length count).toNat < (responsePlan ss).length
          ∧ ∃ idx, lookupPlan (responsePlan ss) (clampIndex (responsePlan ss).length count)
                = some idx
              ∧ idx < ss.length))
    ∧ ((∀ s ∈ ss, s.times ≤ 0) →
      responsePlan ss = []
      ∧ clampIndex (responsePlan ss).length 0 = -1
      ∧ lookupPlan (responsePlan ss) (-1) = none
      ∧ (∀ (e : Endpoint) (r : Request), e.requestCount = 0 → e.scenarios = ss →
          serveOne (responsePlan ss) e r = none)) := by
  constructor
  · intro hex
    have hlen : 1 ≤ (responsePlan ss).length := one_le_length_responsePlanAux ss 0 hex
    have hne : responsePlan ss ≠ [] := by
      intro h
      rw [h] at hlen
      simp at hlen
    refine ⟨hne, ?_⟩
    intro count hcnt
    have hc0 : 0 ≤ clampIndex (responsePlan ss).length count := by
      unfold clampIndex
      split_ifs <;> omega
    have hclt : (clampIndex (responsePlan ss).length count).toNat
        < (responsePlan ss).length := by
      unfold clampIndex
      split_ifs <;> omega
    refine ⟨hc0, hclt, (responsePlan ss).get ⟨_, hclt⟩, ?_, ?_⟩
    · unfold lookupPlan
      rw [dif_pos ⟨hc0, hclt⟩]
    · have hmem : (responsePlan ss).get ⟨_, hclt⟩ ∈ responsePlan ss := List.get_mem _ _ hclt
      have := responsePlanAux_mem_lt ss 0 _ hmem
      simpa using this
  · intro hnp
    have hplan : responsePlan ss = [] := responsePlanAux_nil_of_all_nonpos ss 0 hnp
    have hclamp : clampIndex (responsePlan ss).length 0 = -1 := by
      rw [hplan]
      decide
    refine ⟨hplan, hclamp, ?_, ?_⟩
    · unfold lookupPlan
      rw [dif_neg]
      rintro ⟨h1, -⟩
      omega
    · intro e r hcc hsc
      unfold serveOne
      rw [hplan, hcc]
      rfl

/-- Witness for C10: the two-scenario example has an in-bounds lookup for
counter 0, and the empty endpoint panics on its very first request. -/
theorem plan_lookup_bounds_witness :
    ((∃ s ∈ wsScenarios, 1 ≤ s.times)
      ∧ responsePlan wsScenarios ≠ []
      ∧ (∃ idx, lookupPlan (responsePlan wsScenarios)
            (clampIndex (responsePlan wsScenarios).length 0) = some idx
          ∧ idx < wsScenarios.length))
    ∧ ((∀ s ∈ ([] : List Scenario), s.times ≤ 0)
      ∧ responsePlan ([] : List Scenario) = []
      ∧ serveOne (responsePlan ([] : List Scenario)) (newEndpoint "GET" "/none") sampleRequest
          = none) := by
  constructor
  · have hex : ∃ s ∈ wsScenarios, 1 ≤ s.times := ⟨wsFirst, by simp [wsScenarios], by decide⟩
    obtain ⟨hne, hall⟩ := (plan_lookup_bounds wsScenarios).1 hex
    obtain ⟨-, -, hidx⟩ := hall 0 (by decide)
    exact ⟨hex, hne, hidx⟩
  · have hnp : ∀ s ∈ ([] : List Scenario), s.times ≤ 0 := by simp
    obtain ⟨hplan, -, -, hserve⟩ := (plan_lookup_bounds []).2 hnp
    exact ⟨hnp, hplan, hserve (newEndpoint "GET" "/none") sampleRequest rfl rfl⟩

/-- C9, failing schedule: two concurrent requests that both perform the
LoadInt64 of the request counter before either performs the AddInt64.
Both requests load the value 0, so both are served by plan slot 0 of the
two-slot plan and slot 1 is never issued: the index is not obtained by an
atomic read-and-increment, and under concurrency duplicate indices and
gaps occur.  The serial schedule is shown for contrast. -/
theorem handler_index_assignment_race :
    (runSched 2 [0, 1, 0, 1]).loaded = [some 0, some 0]
    ∧ (runSched 2 [0, 1, 0, 1]).requestCount = 2
    ∧ (runSched 2 [0, 0, 1, 1]).loaded = [some 0, some 1]
    ∧ lookupPlan (responsePlan [raceScenarioA, raceScenarioB]) (clampIndex 2 0) = some 0
    ∧ lookupPlan (responsePlan [raceScenarioA, raceScenarioB]) (clampIndex 2 1) = some 1 := by
  refine ⟨by decide, by decide, by decide, ?_, ?_⟩ <;> rfl

end Mockhttp
